import Mathlib

/-!
Verification of the recursive_phase_solids package.

This file gives a shallow embedding of the two core modules,
recursive_phase.py and verify.py, and proves or refutes the claims of
the specification against it.

Modelling conventions:
  - Python floats are modelled as real numbers.
  - A Python function that can raise an exception is modelled as a
    function into Except Unit (the payload of the exception is not
    relevant to any claim and is elided).
  - Python str.lower is modelled by mapping Char.toLower over the
    characters of the string (all names in play are ASCII).
  - Python min(xs) and max(xs) over a nonempty list are modelled by a
    left fold of min and max over the tail, starting from the head,
    exactly as the builtin computes them.
  - The print diagnostics of the source are side channels and are not
    modelled; only returned values are.
-/

noncomputable section

abbrev Point3 : Type := ℝ × ℝ × ℝ

abbrev Point4 : Type := ℝ × ℝ × ℝ × ℝ

/-- PHI constant from recursive_phase.py: (1 + math.sqrt(5)) / 2. -/
def PHI : ℝ := (1 + Real.sqrt 5) / 2

/-- Euclidean norm of a 4-tuple, as computed by the sum-of-squares
expressions in the source. -/
def norm4 (p : Point4) : ℝ :=
  Real.sqrt (p.1 ^ 2 + p.2.1 ^ 2 + p.2.2.1 ^ 2 + p.2.2.2 ^ 2)

/-- generate_phase_rotor from recursive_phase.py.  theta = pi * 2 ** n,
q = (cos theta, sin theta, cos theta, -sin theta), every component divided
by the Euclidean norm of q. -/
def generate_phase_rotor (n : ℤ) : Point4 :=
  let theta := Real.pi * (2 : ℝ) ^ n
  let cos_theta := Real.cos theta
  let sin_theta := Real.sin theta
  let norm := Real.sqrt (cos_theta ^ 2 + sin_theta ^ 2 + cos_theta ^ 2 + (-sin_theta) ^ 2)
  (cos_theta / norm, sin_theta / norm, cos_theta / norm, -sin_theta / norm)

/-- stereographic_projection from recursive_phase.py: for q = (x, y, z, w),
denom = 1 - w; raises ValueError when denom == 0, otherwise returns
(x/denom, y/denom, z/denom). -/
def stereographic_projection (q : Point4) : Except Unit Point3 :=
  let x := q.1
  let y := q.2.1
  let z := q.2.2.1
  let w := q.2.2.2
  let denom := 1 - w
  if denom = 0 then Except.error ()
  else Except.ok (x / denom, y / denom, z / denom)

/-- Vertex list of the tetrahedron from the PLATONIC_SOLIDS table. -/
def tetrahedron_points : List Point3 :=
  [(1, 1, 1), (-1, -1, 1), (-1, 1, -1), (1, -1, -1)]

/-- Vertex list of the cube from the PLATONIC_SOLIDS table. -/
def cube_points : List Point3 :=
  [(1, 1, 1), (1, 1, -1), (1, -1, 1), (1, -1, -1),
   (-1, 1, 1), (-1, 1, -1), (-1, -1, 1), (-1, -1, -1)]

/-- Vertex list of the octahedron from the PLATONIC_SOLIDS table. -/
def octahedron_points : List Point3 :=
  [(1, 0, 0), (-1, 0, 0), (0, 1, 0), (0, -1, 0), (0, 0, 1), (0, 0, -1)]

/-- Vertex list of the icosahedron from the PLATONIC_SOLIDS table. -/
def icosahedron_points : List Point3 :=
  [(0, 1, PHI), (0, -1, PHI), (0, 1, -PHI), (0, -1, -PHI),
   (1, PHI, 0), (-1, PHI, 0), (1, -PHI, 0), (-1, -PHI, 0),
   (PHI, 0, 1), (-PHI, 0, 1), (PHI, 0, -1), (-PHI, 0, -1)]

/-- Vertex list of the dodecahedron from the PLATONIC_SOLIDS table. -/
def dodecahedron_points : List Point3 :=
  [(1, 1, 1), (1, 1, -1), (1, -1, 1), (1, -1, -1),
   (-1, 1, 1), (-1, 1, -1), (-1, -1, 1), (-1, -1, -1),
   (0, 1 / PHI, PHI), (0, -1 / PHI, PHI), (0, 1 / PHI, -PHI), (0, -1 / PHI, -PHI),
   (PHI, 0, 1 / PHI), (-PHI, 0, 1 / PHI), (PHI, 0, -1 / PHI), (-PHI, 0, -1 / PHI),
   (1 / PHI, PHI, 0), (-1 / PHI, PHI, 0), (1 / PHI, -PHI, 0), (-1 / PHI, -PHI, 0)]

/-- The PLATONIC_SOLIDS dictionary of recursive_phase.py, as an ordered
association list from solid name to vertex list. -/
def PLATONIC_SOLIDS : List (String × List Point3) :=
  [("tetrahedron", tetrahedron_points),
   ("cube", cube_points),
   ("octahedron", octahedron_points),
   ("icosahedron", icosahedron_points),
   ("dodecahedron", dodecahedron_points)]

/-- Model of Python str.lower for the ASCII names used here: lower-case
every character. -/
def lower (s : String) : String := ⟨s.data.map Char.toLower⟩

/-- generate_platonic_solid from recursive_phase.py: lower-case the name,
raise ValueError when it is not a key of PLATONIC_SOLIDS, otherwise
return the stored vertex list. -/
def generate_platonic_solid (name : String) : Except Unit (List Point3) :=
  match PLATONIC_SOLIDS.lookup (lower name) with
  | some pts => Except.ok pts
  | none => Except.error ()

/-- Euclidean distance between two 3D points, as computed by
numpy.linalg.norm of the difference (verify.py) and math.dist
(recursive_phase.py). -/
def dist3 (p q : Point3) : ℝ :=
  Real.sqrt ((p.1 - q.1) ^ 2 + (p.2.1 - q.2.1) ^ 2 + (p.2.2 - q.2.2) ^ 2)

/-- Euclidean norm of a 3D point (numpy.linalg.norm of a row). -/
def norm3 (p : Point3) : ℝ :=
  Real.sqrt (p.1 ^ 2 + p.2.1 ^ 2 + p.2.2 ^ 2)

/-- pairwise_distances from verify.py: the distance for every unordered
pair (i, j) with i < j, enumerated in the order of
itertools.combinations.  The same double loop appears inline in
verify_edge_lengths of recursive_phase.py. -/
def pairwise_distances : List Point3 → List ℝ
  | [] => []
  | p :: ps => ps.map (dist3 p) ++ pairwise_distances ps

/-- Python min over a list: 0 is a junk value for the empty list, which
the source never queries. -/
def minOf : List ℝ → ℝ
  | [] => 0
  | d :: ds => ds.foldl min d

/-- Python max over a list: 0 is a junk value for the empty list, which
the source never queries. -/
def maxOf : List ℝ → ℝ
  | [] => 0
  | d :: ds => ds.foldl max d

/-- verify_edge_uniformity from verify.py: trivially true when there are
no pairwise distances, otherwise true iff the absolute deviation of every
pairwise distance from the global minimum distance is strictly below the
tolerance. -/
def verify_edge_uniformity (points : List Point3) (tolerance : ℝ) : Bool :=
  let dists := pairwise_distances points
  if dists = [] then true
  else
    let min_dist := minOf dists
    let edge_diffs := dists.map (fun d => |d - min_dist|)
    decide (∀ diff ∈ edge_diffs, diff < tolerance)

/-- verify_on_sphere from verify.py: radius is the arithmetic mean of the
point norms; ok true iff every norm deviates from the radius by strictly
less than the tolerance.  On the empty point set the source raises
instead of returning: numpy.asarray of an empty list is a 1-D empty
array, for which the axis=1 of numpy.linalg.norm is out of bounds
(AxisError); this is modelled by the error branch. -/
def verify_on_sphere (points : List Point3) (tolerance : ℝ) : Except Unit Bool :=
  match points with
  | [] => Except.error ()
  | _ :: _ =>
    let norms := points.map norm3
    let radius := norms.sum / (norms.length : ℝ)
    let deviations := norms.map (fun r => |r - radius|)
    Except.ok (decide (∀ dev ∈ deviations, dev < tolerance))

/-- check_golden_ratios from verify.py.  For each point the three ratio
deviations are computed eagerly; in Python the division x / y of plain
floats raises ZeroDivisionError when y == 0, so a point whose second or
third coordinate is zero raises before the tolerance test; this is
modelled by the error branch. -/
def check_golden_ratios : List Point3 → ℝ → Except Unit Bool
  | [], _ => Except.ok false
  | (x, y, z) :: rest, tolerance =>
    if y = 0 ∨ z = 0 then Except.error ()
    else
      let ratios := [|(|x / y|) - PHI|, |(|y / z|) - PHI|, |(|x / z|) - PHI|]
      if ∃ r ∈ ratios, r < tolerance then Except.ok true
      else check_golden_ratios rest tolerance

/-- full_verify from verify.py: r1 and r2 with the caller tolerance, r3
from check_golden_ratios at its own default tolerance 1e-3 when check_phi
is set.  The three calls are evaluated in source order, so an exception
from verify_on_sphere (empty point set) propagates before the
golden-ratio check runs, and an exception from check_golden_ratios
propagates afterwards. -/
def full_verify (points : List Point3) (tolerance : ℝ) (check_phi : Bool) :
    Except Unit Bool :=
  let r1 := verify_edge_uniformity points tolerance
  match verify_on_sphere points tolerance with
  | Except.error e => Except.error e
  | Except.ok r2 =>
    match (if check_phi then check_golden_ratios points 1e-3 else Except.ok true) with
    | Except.error e => Except.error e
    | Except.ok r3 => Except.ok (r1 && r2 && r3)

/-- verify_edge_lengths from recursive_phase.py: true for fewer than two
points; candidate edges are the distances at most min_dist + 10 *
tolerance; true when there are no candidates; otherwise true iff the
maximal deviation of a candidate from the minimum of the candidates is at
most the tolerance. -/
def verify_edge_lengths (points : List Point3) (tolerance : ℝ) : Bool :=
  if points.length < 2 then true
  else
    let distances := pairwise_distances points
    let min_dist := minOf distances
    let candidate_edges := distances.filter (fun d => decide (d ≤ min_dist + 10 * tolerance))
    if candidate_edges = [] then true
    else
      let expected := minOf candidate_edges
      let max_dev := maxOf (candidate_edges.map (fun d => |d - expected|))
      decide (max_dev ≤ tolerance)

/-! ### Helper lemmas about folds, the golden ratio and square roots -/

theorem foldl_min_mem : ∀ (ds : List ℝ) (d : ℝ), ds.foldl min d ∈ d :: ds := by
  intro ds
  induction ds with
  | nil => intro d; simp
  | cons e es ih =>
    intro d
    have h := ih (min d e)
    rcases min_cases d e with ⟨hm, _⟩ | ⟨hm, _⟩ <;>
      · rw [hm] at h
        simp only [List.foldl_cons]
        rcases List.mem_cons.mp h with h1 | h1 <;> simp [hm, h1]

theorem foldl_min_le : ∀ (ds : List ℝ) (d x : ℝ), x ∈ d :: ds → ds.foldl min d ≤ x := by
  intro ds
  induction ds with
  | nil => intro d x hx; simp at hx; simp [hx]
  | cons e es ih =>
    intro d x hx
    simp only [List.foldl_cons]
    rcases List.mem_cons.mp hx with h1 | h1
    · calc es.foldl min (min d e) ≤ min d e := ih (min d e) (min d e) (by simp)
        _ ≤ d := min_le_left _ _
        _ = x := h1.symm
    · rcases List.mem_cons.mp h1 with h2 | h2
      · calc es.foldl min (min d e) ≤ min d e := ih (min d e) (min d e) (by simp)
          _ ≤ e := min_le_right _ _
          _ = x := h2.symm
      · exact ih (min d e) x (by simp [h2])

theorem foldl_max_mem : ∀ (ds : List ℝ) (d : ℝ), ds.foldl max d ∈ d :: ds := by
  intro ds
  induction ds with
  | nil => intro d; simp
  | cons e es ih =>
    intro d
    have h := ih (max d e)
    rcases max_cases d e with ⟨hm, _⟩ | ⟨hm, _⟩ <;>
      · rw [hm] at h
        simp only [List.foldl_cons]
        rcases List.mem_cons.mp h with h1 | h1 <;> simp [hm, h1]

theorem foldl_max_ge : ∀ (ds : List ℝ) (d x : ℝ), x ∈ d :: ds → x ≤ ds.foldl max d := by
  intro ds
  induction ds with
  | nil => intro d x hx; simp at hx; simp [hx]
  | cons e es ih =>
    intro d x hx
    simp only [List.foldl_cons]
    rcases List.mem_cons.mp hx with h1 | h1
    · calc x = d := h1
        _ ≤ max d e := le_max_left _ _
        _ ≤ es.foldl max (max d e) := ih (max d e) (max d e) (by simp)
    · rcases List.mem_cons.mp h1 with h2 | h2
      · calc x = e := h2
          _ ≤ max d e := le_max_right _ _
          _ ≤ es.foldl max (max d e) := ih (max d e) (max d e) (by simp)
      · exact ih (max d e) x (by simp [h2])

theorem minOf_eq_of (d : ℝ) (ds : List ℝ) (m : ℝ) (hmem : m ∈ d :: ds)
    (hle : ∀ x ∈ d :: ds, m ≤ x) : minOf (d :: ds) = m :=
  le_antisymm (foldl_min_le ds d m hmem) (hle _ (foldl_min_mem ds d))

theorem minOf_mem (d : ℝ) (ds : List ℝ) : minOf (d :: ds) ∈ d :: ds :=
  foldl_min_mem ds d

theorem minOf_le (d : ℝ) (ds : List ℝ) (x : ℝ) (hx : x ∈ d :: ds) :
    minOf (d :: ds) ≤ x :=
  foldl_min_le ds d x hx

theorem maxOf_le_iff (d : ℝ) (ds : List ℝ) (c : ℝ) :
    maxOf (d :: ds) ≤ c ↔ ∀ x ∈ d :: ds, x ≤ c := by
  constructor
  · intro h x hx
    exact le_trans (foldl_max_ge ds d x hx) h
  · intro h
    exact h _ (foldl_max_mem ds d)

theorem sqrt5_ge : (2 : ℝ) ≤ Real.sqrt 5 :=
  Real.le_sqrt_of_sq_le (by norm_num)

theorem sqrt5_sq : Real.sqrt 5 ^ 2 = 5 := Real.sq_sqrt (by norm_num)

theorem phi_ge : (3 / 2 : ℝ) ≤ PHI := by
  unfold PHI
  linarith [sqrt5_ge]

theorem phi_pos : (0 : ℝ) < PHI := lt_of_lt_of_le (by norm_num) phi_ge

theorem phi_ne_zero : PHI ≠ 0 := ne_of_gt phi_pos

theorem phi_sq : PHI ^ 2 = PHI + 1 := by
  unfold PHI
  linear_combination sqrt5_sq / 4

theorem one_div_phi : 1 / PHI = PHI - 1 := by
  rw [div_eq_iff phi_ne_zero]
  linear_combination -phi_sq

theorem abs_one_div_phi_sub_phi : |1 / PHI - PHI| = 1 := by
  rw [one_div_phi]
  rw [show PHI - 1 - PHI = -1 by ring]
  simp

theorem sqrt2_le_two : Real.sqrt 2 ≤ 2 := by
  nlinarith [Real.sq_sqrt (show (0:ℝ) ≤ 2 by norm_num), Real.sqrt_nonneg 2]

theorem sqrt2_lt_two : Real.sqrt 2 < 2 := by
  nlinarith [Real.sq_sqrt (show (0:ℝ) ≤ 2 by norm_num), Real.sqrt_nonneg 2]

theorem sqrt2_ge_one : (1 : ℝ) ≤ Real.sqrt 2 :=
  Real.le_sqrt_of_sq_le (by norm_num)

theorem two_le_sqrt8 : (2 : ℝ) ≤ Real.sqrt 8 :=
  Real.le_sqrt_of_sq_le (by norm_num)

theorem two_le_sqrt12 : (2 : ℝ) ≤ Real.sqrt 12 :=
  Real.le_sqrt_of_sq_le (by norm_num)

theorem sqrt8_large : (2 + 1e-4 : ℝ) < Real.sqrt 8 :=
  Real.lt_sqrt_of_sq_lt (by norm_num)

theorem sqrt12_large : (2 + 1e-4 : ℝ) < Real.sqrt 12 :=
  Real.lt_sqrt_of_sq_lt (by norm_num)

theorem sqrt3_pos : (0 : ℝ) < Real.sqrt 3 := Real.sqrt_pos.mpr (by norm_num)

/-- Index pairs (i, j) with i < j < n, in lexicographic order: the order
in which itertools.combinations enumerates the index pairs. -/
def pairIdx (n : ℕ) : List (ℕ × ℕ) :=
  (List.range n).flatMap (fun i =>
    ((List.range n).filter (fun j => decide (i < j))).map (fun j => (i, j)))

theorem map_getD_range (l : List Point3) (f : Point3 → ℝ) :
    (List.range l.length).map (fun i => f (l.getD i ((0 : ℝ), 0, 0))) = l.map f := by
  induction l with
  | nil => simp
  | cons q qs ih =>
    rw [List.length_cons, List.range_succ_eq_map, List.map_cons, List.map_map,
      List.map_cons]
    congr 1

theorem filter_gt_zero (n : ℕ) :
    ((List.range n).map Nat.succ).filter (fun j => decide (0 < j)) =
      (List.range n).map Nat.succ := by
  rw [List.filter_eq_self]
  intro a ha
  rcases List.mem_map.mp ha with ⟨i, _, rfl⟩
  simp

theorem filter_succ_lt (n i : ℕ) :
    ((List.range n).map Nat.succ).filter (fun j => decide (Nat.succ i < j)) =
      ((List.range n).filter (fun j => decide (i < j))).map Nat.succ := by
  rw [List.filter_map]
  congr 1
  apply List.filter_congr
  intro j _
  simp [Function.comp, Nat.succ_lt_succ_iff]

/-- pairwise_distances contains exactly the distance of the points at
positions i and j, for every index pair i < j, in combinations order. -/
theorem pairwise_distances_pairIdx (pts : List Point3) :
    pairwise_distances pts =
      (pairIdx pts.length).map (fun ij =>
        dist3 (pts.getD ij.1 ((0 : ℝ), 0, 0)) (pts.getD ij.2 ((0 : ℝ), 0, 0))) := by
  induction pts with
  | nil => rfl
  | cons p ps ih =>
    show ps.map (dist3 p) ++ pairwise_distances ps = _
    rw [List.length_cons, pairIdx, List.range_succ_eq_map, List.flatMap_cons,
      List.map_append]
    congr 1
    · rw [List.filter_cons_of_neg (by simp), filter_gt_zero, List.map_map, List.map_map]
      have h := map_getD_range ps (dist3 p)
      rw [← h]
      rfl
    · rw [List.flatMap_map, ih, pairIdx, List.map_flatMap, List.map_flatMap]
      apply List.flatMap_congr
      intro x hx
      rw [List.filter_cons_of_neg (by simp), filter_succ_lt, List.map_map,
        List.map_map, List.map_map]
      rfl

/-- pairwise_distances yields n * (n - 1) / 2 values for n points. -/
theorem pairwise_distances_length (pts : List Point3) :
    (pairwise_distances pts).length = pts.length * (pts.length - 1) / 2 := by
  have key : ∀ l : List Point3,
      2 * (pairwise_distances l).length = l.length * (l.length - 1) := by
    intro l
    induction l with
    | nil => rfl
    | cons p ps ih =>
      show 2 * (ps.map (dist3 p) ++ pairwise_distances ps).length = _
      rw [List.length_append, List.length_map, List.length_cons]
      cases hn : ps.length with
      | zero =>
        rw [hn] at ih
        simp at ih
        simp [hn, ih]
      | succ k =>
        rw [hn] at ih
        calc 2 * (k + 1 + (pairwise_distances ps).length)
            = 2 * (k + 1) + 2 * (pairwise_distances ps).length := by ring
          _ = 2 * (k + 1) + (k + 1) * (k + 1 - 1) := by rw [ih]
          _ = (k + 1 + 1) * (k + 1 + 1 - 1) := by
              simp [Nat.add_sub_cancel]
              ring
  have h := key pts
  rw [← h]
  omega

/-! ### Concrete distance and norm computations -/

theorem octa_dists :
    pairwise_distances octahedron_points =
      [2, Real.sqrt 2, Real.sqrt 2, Real.sqrt 2, Real.sqrt 2,
       Real.sqrt 2, Real.sqrt 2, Real.sqrt 2, Real.sqrt 2,
       2, Real.sqrt 2, Real.sqrt 2,
       Real.sqrt 2, Real.sqrt 2,
       2] := by
  simp [pairwise_distances, octahedron_points, dist3]
  norm_num

theorem cube_dists :
    pairwise_distances cube_points =
      [2, 2, Real.sqrt 8, 2, Real.sqrt 8, Real.sqrt 8, Real.sqrt 12,
       Real.sqrt 8, 2, Real.sqrt 8, 2, Real.sqrt 12, Real.sqrt 8,
       2, Real.sqrt 8, Real.sqrt 12, 2, Real.sqrt 8,
       Real.sqrt 12, Real.sqrt 8, Real.sqrt 8, 2,
       2, 2, Real.sqrt 8,
       Real.sqrt 8, 2,
       2] := by
  simp [pairwise_distances, cube_points, dist3]
  norm_num

theorem octa_min : minOf (pairwise_distances octahedron_points) = Real.sqrt 2 := by
  rw [octa_dists]
  apply minOf_eq_of
  · simp
  · simp [sqrt2_le_two]

theorem cube_min : minOf (pairwise_distances cube_points) = 2 := by
  rw [cube_dists]
  apply minOf_eq_of
  · simp
  · simp [two_le_sqrt8, two_le_sqrt12]

theorem cube_norms :
    cube_points.map norm3 =
      [Real.sqrt 3, Real.sqrt 3, Real.sqrt 3, Real.sqrt 3,
       Real.sqrt 3, Real.sqrt 3, Real.sqrt 3, Real.sqrt 3] := by
  simp [cube_points, norm3]
  norm_num

theorem octa_norms : octahedron_points.map norm3 = [1, 1, 1, 1, 1, 1] := by
  simp [octahedron_points, norm3]

theorem octa_count12 :
    (pairwise_distances octahedron_points).countP
      (fun d => decide (|d - Real.sqrt 2| ≤ 1e-9)) = 12 := by
  have hT : (|Real.sqrt 2 - Real.sqrt 2| ≤ (1e-9 : ℝ)) = True := eq_true (by norm_num)
  have h32 : Real.sqrt 2 ≤ 3 / 2 := by
    nlinarith [Real.sq_sqrt (show (0 : ℝ) ≤ 2 by norm_num), Real.sqrt_nonneg 2]
  have hFn : ¬(|(2 : ℝ) - Real.sqrt 2| ≤ (1e-9 : ℝ)) := by
    rw [abs_of_nonneg (by linarith [sqrt2_le_two] : (0 : ℝ) ≤ 2 - Real.sqrt 2)]
    push_neg
    linarith
  have hF : (|(2 : ℝ) - Real.sqrt 2| ≤ (1e-9 : ℝ)) = False := eq_false hFn
  rw [octa_dists]
  simp only [List.countP_cons, List.countP_nil, decide_eq_true_eq, hT, hF,
    if_true, if_false]

/-! ### Claim theorems -/

/-- The pass condition of verify_on_sphere on a nonempty point set, in
propositional form: the result is a boolean, true iff every norm deviates
from the mean norm by strictly less than the tolerance. -/
theorem verify_on_sphere_cons_iff (p : Point3) (ps : List Point3) (tolerance : ℝ) :
    verify_on_sphere (p :: ps) tolerance = Except.ok true ↔
      ∀ q ∈ p :: ps,
        |norm3 q - ((p :: ps).map norm3).sum / (((p :: ps).map norm3).length : ℝ)| <
          tolerance := by
  simp only [verify_on_sphere, Except.ok.injEq, decide_eq_true_eq, List.forall_mem_map]

theorem cube_on_sphere_ok : verify_on_sphere cube_points 1e-6 = Except.ok true := by
  have hall : ∀ q ∈ cube_points,
      |norm3 q - (cube_points.map norm3).sum / ((cube_points.map norm3).length : ℝ)| <
        (1e-6 : ℝ) := by
    intro q hq
    have hmem : norm3 q ∈ cube_points.map norm3 := List.mem_map_of_mem norm3 hq
    rw [cube_norms] at hmem
    simp only [List.mem_cons, List.not_mem_nil, or_false, or_self] at hmem
    rw [hmem, cube_norms]
    have hsum : ([Real.sqrt 3, Real.sqrt 3, Real.sqrt 3, Real.sqrt 3,
        Real.sqrt 3, Real.sqrt 3, Real.sqrt 3, Real.sqrt 3] : List ℝ).sum =
        8 * Real.sqrt 3 := by
      simp
      ring
    rw [hsum]
    norm_num
  exact (verify_on_sphere_cons_iff ((1 : ℝ), 1, 1)
    [((1 : ℝ), 1, -1), ((1 : ℝ), -1, 1), ((1 : ℝ), -1, -1),
     ((-1 : ℝ), 1, 1), ((-1 : ℝ), 1, -1), ((-1 : ℝ), -1, 1), ((-1 : ℝ), -1, -1)]
    (1e-6 : ℝ)).mpr hall

/-- C7 counterexample: on the empty point set the deviation condition of
the claim holds vacuously, yet verify_on_sphere returns no boolean at
all: numpy.linalg.norm with axis=1 raises on the empty array, so the
claimed pass-iff equivalence fails at this input. -/
theorem c7_on_sphere_empty_counterexample :
    verify_on_sphere [] 1e-6 = Except.error () ∧
      ∀ q ∈ ([] : List Point3),
        |norm3 q - (([] : List Point3).map norm3).sum /
          ((([] : List Point3).map norm3).length : ℝ)| < (1e-6 : ℝ) :=
  ⟨rfl, by simp⟩

/-- C7 amended: on every nonempty point set verify_on_sphere returns a
boolean, which is true iff every point norm deviates from the mean of all
norms by strictly less than the tolerance; on the empty point set it
raises (numpy AxisError) instead of passing; the cube has all eight
vertex norms equal to sqrt 3 and passes at the default tolerance. -/
theorem c7_verify_on_sphere_amended :
    (∀ (p : Point3) (ps : List Point3) (tolerance : ℝ),
      verify_on_sphere (p :: ps) tolerance = Except.ok true ↔
        ∀ q ∈ p :: ps,
          |norm3 q - ((p :: ps).map norm3).sum / (((p :: ps).map norm3).length : ℝ)| <
            tolerance) ∧
    (∀ (p : Point3) (ps : List Point3) (tolerance : ℝ),
      ∃ b : Bool, verify_on_sphere (p :: ps) tolerance = Except.ok b) ∧
    (∀ tolerance : ℝ, verify_on_sphere [] tolerance = Except.error ()) ∧
    generate_platonic_solid "cube" = Except.ok cube_points ∧
    cube_points.map norm3 =
      [Real.sqrt 3, Real.sqrt 3, Real.sqrt 3, Real.sqrt 3,
       Real.sqrt 3, Real.sqrt 3, Real.sqrt 3, Real.sqrt 3] ∧
    verify_on_sphere cube_points 1e-6 = Except.ok true :=
  ⟨verify_on_sphere_cons_iff, fun _ _ _ => ⟨_, rfl⟩, fun _ => rfl, rfl, cube_norms,
    cube_on_sphere_ok⟩

/-- C6: stereographic_projection raises its domain error exactly when
w = 1 (no tolerance band), otherwise returns
(x/(1-w), y/(1-w), z/(1-w)); at (0,0,0,0) it returns (0,0,0). -/
theorem c6_stereographic_projection_spec :
    (∀ x y z w : ℝ, stereographic_projection (x, y, z, w) =
      if w = 1 then Except.error ()
      else Except.ok (x / (1 - w), y / (1 - w), z / (1 - w))) ∧
    stereographic_projection ((0 : ℝ), (0 : ℝ), (0 : ℝ), (0 : ℝ)) =
      Except.ok ((0 : ℝ), (0 : ℝ), (0 : ℝ)) := by
  constructor
  · intro x y z w
    show (if 1 - w = 0 then (Except.error () : Except Unit Point3)
        else Except.ok (x / (1 - w), y / (1 - w), z / (1 - w))) = _
    by_cases h : w = 1
    · rw [if_pos (by rw [h]; ring), if_pos h]
    · rw [if_neg (fun hc => h (sub_eq_zero.mp hc).symm), if_neg h]
  · show (if 1 - (0 : ℝ) = 0 then (Except.error () : Except Unit Point3)
        else Except.ok ((0 : ℝ) / (1 - 0), (0 : ℝ) / (1 - 0), (0 : ℝ) / (1 - 0))) = _
    norm_num

/-- C8: for every integer n, generate_phase_rotor n is the 4-tuple
(cos theta, sin theta, cos theta, -sin theta) with theta = pi * 2 ^ n,
divided componentwise by the Euclidean norm of that tuple, and the result
has Euclidean norm within 1e-9 of 1. -/
theorem c8_generate_phase_rotor_unit_norm :
    ∀ n : ℤ, ∃ theta norm : ℝ,
      theta = Real.pi * (2 : ℝ) ^ n ∧
      norm = norm4 (Real.cos theta, Real.sin theta, Real.cos theta, -Real.sin theta) ∧
      generate_phase_rotor n =
        (Real.cos theta / norm, Real.sin theta / norm,
         Real.cos theta / norm, -Real.sin theta / norm) ∧
      |norm4 (generate_phase_rotor n) - 1| ≤ 1e-9 := by
  intro n
  set θ := Real.pi * (2 : ℝ) ^ n with hθ
  have hcs : Real.sin θ ^ 2 + Real.cos θ ^ 2 = 1 := Real.sin_sq_add_cos_sq θ
  have hplain : Real.cos θ ^ 2 + Real.sin θ ^ 2 + Real.cos θ ^ 2 + (-Real.sin θ) ^ 2 = 2 := by
    nlinarith [hcs]
  have hrot : generate_phase_rotor n =
      (Real.cos θ / Real.sqrt 2, Real.sin θ / Real.sqrt 2,
       Real.cos θ / Real.sqrt 2, -Real.sin θ / Real.sqrt 2) := by
    show (Real.cos θ / Real.sqrt (Real.cos θ ^ 2 + Real.sin θ ^ 2 + Real.cos θ ^ 2 + (-Real.sin θ) ^ 2),
        Real.sin θ / Real.sqrt (Real.cos θ ^ 2 + Real.sin θ ^ 2 + Real.cos θ ^ 2 + (-Real.sin θ) ^ 2),
        Real.cos θ / Real.sqrt (Real.cos θ ^ 2 + Real.sin θ ^ 2 + Real.cos θ ^ 2 + (-Real.sin θ) ^ 2),
        -Real.sin θ / Real.sqrt (Real.cos θ ^ 2 + Real.sin θ ^ 2 + Real.cos θ ^ 2 + (-Real.sin θ) ^ 2)) = _
    rw [hplain]
  refine ⟨θ, norm4 (Real.cos θ, Real.sin θ, Real.cos θ, -Real.sin θ), hθ, rfl, rfl, ?_⟩
  rw [hrot]
  have hsq2 : Real.sqrt 2 ^ 2 = 2 := Real.sq_sqrt (by norm_num)
  have hval : norm4 (Real.cos θ / Real.sqrt 2, Real.sin θ / Real.sqrt 2,
      Real.cos θ / Real.sqrt 2, -Real.sin θ / Real.sqrt 2) = 1 := by
    show Real.sqrt ((Real.cos θ / Real.sqrt 2) ^ 2 + (Real.sin θ / Real.sqrt 2) ^ 2 +
        (Real.cos θ / Real.sqrt 2) ^ 2 + (-Real.sin θ / Real.sqrt 2) ^ 2) = 1
    have e1 : (Real.cos θ / Real.sqrt 2) ^ 2 + (Real.sin θ / Real.sqrt 2) ^ 2 +
        (Real.cos θ / Real.sqrt 2) ^ 2 + (-Real.sin θ / Real.sqrt 2) ^ 2 =
        (Real.cos θ ^ 2 + Real.sin θ ^ 2 + Real.cos θ ^ 2 + Real.sin θ ^ 2) /
          Real.sqrt 2 ^ 2 := by
      ring
    rw [e1, hsq2,
      show Real.cos θ ^ 2 + Real.sin θ ^ 2 + Real.cos θ ^ 2 + Real.sin θ ^ 2 = 2 by
        nlinarith [hcs],
      show (2 : ℝ) / 2 = 1 by norm_num, Real.sqrt_one]
  rw [hval]
  norm_num

/-- C10: full_verify with check_phi set calls check_golden_ratios at the
fixed default tolerance 1e-3, not at the caller tolerance, so the
golden-ratio factor of the result does not depend on the tolerance
argument; in particular when check_golden_ratios at 1e-3 returns false on
a nonempty point set, full_verify returns false at every tolerance. -/
theorem c10_full_verify_fixed_phi_tolerance :
    (∀ (points : List Point3) (tolerance : ℝ),
      full_verify points tolerance true =
        match verify_on_sphere points tolerance with
        | Except.error e => Except.error e
        | Except.ok r2 =>
          match check_golden_ratios points 1e-3 with
          | Except.error e => Except.error e
          | Except.ok r3 =>
              Except.ok (verify_edge_uniformity points tolerance && r2 && r3)) ∧
    (∀ (points : List Point3) (t1 t2 : ℝ),
      points ≠ [] →
      check_golden_ratios points 1e-3 = Except.ok false →
      full_verify points t1 true = Except.ok false ∧
        full_verify points t2 true = Except.ok false) := by
  have key : ∀ (points : List Point3) (tolerance : ℝ),
      full_verify points tolerance true =
        match verify_on_sphere points tolerance with
        | Except.error e => Except.error e
        | Except.ok r2 =>
          match check_golden_ratios points 1e-3 with
          | Except.error e => Except.error e
          | Except.ok r3 =>
              Except.ok (verify_edge_uniformity points tolerance && r2 && r3) :=
    fun _ _ => rfl
  refine ⟨key, ?_⟩
  intro points t1 t2 hne h
  cases points with
  | nil => exact absurd rfl hne
  | cons p ps =>
    refine ⟨?_, ?_⟩ <;>
      · rw [key]
        simp only [verify_on_sphere]
        rw [h]
        simp

/-- Witness for C10 at the concrete one-point set [(1,1,1)], whose
golden-ratio check at tolerance 1e-3 returns false. -/
theorem c10_full_verify_fixed_phi_tolerance_witness :
    full_verify [((1 : ℝ), 1, 1)] 1 true = Except.ok false ∧
      full_verify [((1 : ℝ), 1, 1)] 2 true = Except.ok false := by
  have hratio : ¬(|(|(1 : ℝ) / 1|) - PHI| < 1e-3) := by
    rw [show |(1 : ℝ) / 1| = 1 by norm_num, abs_sub_comm,
      abs_of_nonneg (by linarith [phi_ge] : (0 : ℝ) ≤ PHI - 1)]
    linarith [phi_ge]
  refine c10_full_verify_fixed_phi_tolerance.2 [((1 : ℝ), 1, 1)] 1 2 (by simp) ?_
  simp only [check_golden_ratios]
  rw [if_neg (by norm_num), if_neg ?_]
  rintro ⟨r, hr, hlt⟩
  simp only [List.mem_cons, List.not_mem_nil, or_false] at hr
  rcases hr with rfl | rfl | rfl <;> exact hratio hlt

/-- C2 (code bug): check_golden_ratios does not survive a zero
coordinate: on the octahedron vertex list the very first point (1, 0, 0)
divides by zero, so the function raises instead of returning a boolean. -/
theorem c2_check_golden_ratios_octahedron_error :
    check_golden_ratios octahedron_points 1e-3 = Except.error () := by
  simp only [octahedron_points, check_golden_ratios]
  rw [if_pos (Or.inl trivial)]

theorem abs_phi : |PHI| = PHI := abs_of_pos phi_pos

theorem abs_neg_phi : |(-PHI)| = PHI := by rw [abs_neg, abs_phi]

/-- A coordinate ratio with numerator 0 misses PHI by at least 1e-3. -/
theorem ratio_zero_bound (c : ℝ) : (1e-3 : ℝ) ≤ |(|0 / c|) - PHI| := by
  rw [zero_div, abs_zero, zero_sub, abs_neg, abs_of_pos phi_pos]
  linarith [phi_ge]

/-- A coordinate ratio of absolute value 1 / PHI misses PHI by exactly 1,
hence by at least 1e-3. -/
theorem ratio_unit_phi_bound (a b : ℝ) (ha : |a| = 1) (hb : |b| = PHI) :
    (1e-3 : ℝ) ≤ |(|a / b|) - PHI| := by
  rw [abs_div, ha, hb, abs_one_div_phi_sub_phi]
  norm_num

theorem no_ratio_match (r1 r2 r3 : ℝ) (h1 : (1e-3 : ℝ) ≤ r1) (h2 : (1e-3 : ℝ) ≤ r2)
    (h3 : (1e-3 : ℝ) ≤ r3) : ¬∃ r ∈ [r1, r2, r3], r < (1e-3 : ℝ) := by
  rintro ⟨r, hr, hlt⟩
  simp only [List.mem_cons, List.not_mem_nil, or_false] at hr
  rcases hr with rfl | rfl | rfl <;> linarith

/-- C3 (code bug): on the icosahedron vertex list, no golden ratio is
found among the first four vertices, and the fifth vertex (1, PHI, 0)
divides by its zero third coordinate, so check_golden_ratios raises
instead of returning true. -/
theorem c3_check_golden_ratios_icosahedron_error :
    check_golden_ratios icosahedron_points 1e-3 = Except.error () := by
  have hone : ((1 : ℝ) = 0 ∨ PHI = 0) → False := by
    rintro (h | h)
    · exact one_ne_zero h
    · exact phi_ne_zero h
  have hmone : ((-1 : ℝ) = 0 ∨ PHI = 0) → False := by
    rintro (h | h)
    · norm_num at h
    · exact phi_ne_zero h
  have hone2 : ((1 : ℝ) = 0 ∨ -PHI = 0) → False := by
    rintro (h | h)
    · exact one_ne_zero h
    · exact phi_ne_zero (neg_eq_zero.mp h)
  have hmone2 : ((-1 : ℝ) = 0 ∨ -PHI = 0) → False := by
    rintro (h | h)
    · norm_num at h
    · exact phi_ne_zero (neg_eq_zero.mp h)
  have m1 := no_ratio_match _ _ _ (ratio_zero_bound 1)
    (ratio_unit_phi_bound 1 PHI abs_one abs_phi) (ratio_zero_bound PHI)
  have m2 := no_ratio_match _ _ _ (ratio_zero_bound (-1))
    (ratio_unit_phi_bound (-1) PHI (by norm_num) abs_phi) (ratio_zero_bound PHI)
  have m3 := no_ratio_match _ _ _ (ratio_zero_bound 1)
    (ratio_unit_phi_bound 1 (-PHI) abs_one abs_neg_phi) (ratio_zero_bound (-PHI))
  have m4 := no_ratio_match _ _ _ (ratio_zero_bound (-1))
    (ratio_unit_phi_bound (-1) (-PHI) (by norm_num) abs_neg_phi) (ratio_zero_bound (-PHI))
  simp only [icosahedron_points, check_golden_ratios]
  rw [if_neg hone, if_neg m1, if_neg hmone, if_neg m2, if_neg hone2, if_neg m3,
    if_neg hmone2, if_neg m4, if_pos (Or.inr trivial)]

/-- The pass condition of verify_edge_uniformity in propositional form:
every pairwise distance (not only the near-minimal ones) must deviate
from the global minimum distance by strictly less than the tolerance. -/
theorem verify_edge_uniformity_iff (points : List Point3) (tolerance : ℝ) :
    verify_edge_uniformity points tolerance = true ↔
      (pairwise_distances points = [] ∨
        ∀ d ∈ pairwise_distances points,
          |d - minOf (pairwise_distances points)| < tolerance) := by
  simp only [verify_edge_uniformity]
  by_cases h : pairwise_distances points = []
  · simp [h]
  · rw [if_neg h]
    simp only [decide_eq_true_eq, List.forall_mem_map]
    constructor
    · intro hall
      exact Or.inr hall
    · rintro (hc | hall)
      · exact absurd hc h
      · exact hall

theorem cube_edge_uniformity_false :
    verify_edge_uniformity cube_points 1e-6 = false := by
  have hmem8 : Real.sqrt 8 ∈ pairwise_distances cube_points := by
    rw [cube_dists]
    simp
  have hne : ¬(verify_edge_uniformity cube_points 1e-6 = true) := by
    rw [verify_edge_uniformity_iff]
    rintro (hc | hall)
    · rw [cube_dists] at hc
      simp at hc
    · have h8 := hall _ hmem8
      rw [cube_min] at h8
      have hlarge := sqrt8_large
      rw [abs_of_nonneg (by linarith : (0 : ℝ) ≤ Real.sqrt 8 - 2)] at h8
      linarith
  simpa using hne

/-- C1 counterexample: contrary to the claim, narrow-mode
verify_edge_uniformity returns false on the cube at the default tolerance
1e-6, because the face diagonals are also compared against the minimum
distance. -/
theorem c1_narrow_cube_counterexample :
    generate_platonic_solid "cube" = Except.ok cube_points ∧
      verify_edge_uniformity cube_points 1e-6 = false :=
  ⟨rfl, cube_edge_uniformity_false⟩

/-- C1 amended: verify_edge_uniformity does not restrict attention to
near-minimal candidate distances; it compares every pairwise distance to
the global minimum and passes iff all deviations are strictly below the
tolerance (trivially passing when there are no distances); consequently
it returns false on the cube at the default tolerance. -/
theorem c1_narrow_edge_uniformity_amended :
    (∀ (points : List Point3) (tolerance : ℝ),
      verify_edge_uniformity points tolerance = true ↔
        (pairwise_distances points = [] ∨
          ∀ d ∈ pairwise_distances points,
            |d - minOf (pairwise_distances points)| < tolerance)) ∧
    (∀ tolerance : ℝ, verify_edge_uniformity [] tolerance = true) ∧
    (∀ (p : Point3) (tolerance : ℝ), verify_edge_uniformity [p] tolerance = true) ∧
    generate_platonic_solid "cube" = Except.ok cube_points ∧
    verify_edge_uniformity cube_points 1e-6 = false :=
  ⟨verify_edge_uniformity_iff, fun _ => rfl, fun _ _ => rfl, rfl,
    cube_edge_uniformity_false⟩

/-- The pass condition of verify_edge_lengths in propositional form, with
the candidate set written as in the specification: distances within
10 * tolerance of the global minimum, each compared to the minimum of the
candidates. -/
theorem verify_edge_lengths_iff (points : List Point3) (tolerance : ℝ) :
    verify_edge_lengths points tolerance = true ↔
      (points.length < 2 ∨
        ∀ d ∈ (pairwise_distances points).filter
            (fun x => decide (|x - minOf (pairwise_distances points)| ≤ 10 * tolerance)),
          |d - minOf ((pairwise_distances points).filter
            (fun x => decide (|x - minOf (pairwise_distances points)| ≤ 10 * tolerance)))| ≤
            tolerance) := by
  have hfeq : (pairwise_distances points).filter
      (fun x => decide (|x - minOf (pairwise_distances points)| ≤ 10 * tolerance)) =
      (pairwise_distances points).filter
        (fun d => decide (d ≤ minOf (pairwise_distances points) + 10 * tolerance)) := by
    apply List.filter_congr
    intro x hx
    have hminle : minOf (pairwise_distances points) ≤ x := by
      cases hpd : pairwise_distances points with
      | nil => rw [hpd] at hx; simp at hx
      | cons a l =>
        rw [hpd] at hx
        exact minOf_le a l x hx
    rw [decide_eq_decide,
      abs_of_nonneg (by linarith : (0 : ℝ) ≤ x - minOf (pairwise_distances points))]
    constructor <;> intro <;> linarith
  by_cases hlen : points.length < 2
  · simp [verify_edge_lengths, hlen]
  · rw [or_iff_right hlen, hfeq]
    simp only [verify_edge_lengths]
    rw [if_neg hlen]
    cases hLs : (pairwise_distances points).filter
        (fun d => decide (d ≤ minOf (pairwise_distances points) + 10 * tolerance)) with
    | nil => simp
    | cons a l =>
      rw [if_neg (by simp), decide_eq_true_eq, List.map_cons, maxOf_le_iff]
      simp only [List.forall_mem_cons, List.forall_mem_map]

theorem cube_edge_lengths_true : verify_edge_lengths cube_points 1e-5 = true := by
  have hT : ((2 : ℝ) ≤ 2 + 10 * 1e-5) = True := eq_true (by norm_num)
  have hF8 : (Real.sqrt 8 ≤ 2 + 10 * 1e-5) = False :=
    eq_false (not_le.mpr (by linarith [sqrt8_large]))
  have hF12 : (Real.sqrt 12 ≤ 2 + 10 * 1e-5) = False :=
    eq_false (not_le.mpr (by linarith [sqrt12_large]))
  have hexp : minOf ([2, 2, 2, 2, 2, 2, 2, 2, 2, 2, 2, 2] : List ℝ) = 2 := by
    apply minOf_eq_of <;> simp
  simp only [verify_edge_lengths]
  rw [if_neg (by simp [cube_points]), cube_min, cube_dists]
  simp only [List.filter_cons, List.filter_nil, decide_eq_true_eq, hT, hF8, hF12,
    if_true, if_false]
  rw [if_neg (by simp), hexp]
  have hmap : (([2, 2, 2, 2, 2, 2, 2, 2, 2, 2, 2, 2] : List ℝ).map (fun d => |d - 2|)) =
      [0, 0, 0, 0, 0, 0, 0, 0, 0, 0, 0, 0] := by
    norm_num
  have hmax : maxOf ([0, 0, 0, 0, 0, 0, 0, 0, 0, 0, 0, 0] : List ℝ) = 0 := by
    simp [maxOf]
  rw [hmap, hmax]
  simp only [decide_eq_true_eq]
  norm_num

/-- C4: wide-mode verify_edge_lengths passes iff every candidate distance
(within 10 * tolerance of the global minimum) deviates from the minimum
of the candidates by at most the tolerance; point sets with fewer than
two points pass trivially; the cube passes at the default tolerance
1e-5. -/
theorem c4_verify_edge_lengths_wide :
    (∀ (points : List Point3) (tolerance : ℝ),
      verify_edge_lengths points tolerance = true ↔
        (points.length < 2 ∨
          ∀ d ∈ (pairwise_distances points).filter
              (fun x => decide (|x - minOf (pairwise_distances points)| ≤ 10 * tolerance)),
            |d - minOf ((pairwise_distances points).filter
              (fun x => decide (|x - minOf (pairwise_distances points)| ≤ 10 * tolerance)))| ≤
              tolerance)) ∧
    (∀ tolerance : ℝ, verify_edge_lengths [] tolerance = true) ∧
    (∀ (p : Point3) (tolerance : ℝ), verify_edge_lengths [p] tolerance = true) ∧
    generate_platonic_solid "cube" = Except.ok cube_points ∧
    verify_edge_lengths cube_points 1e-5 = true :=
  ⟨verify_edge_lengths_iff, fun _ => rfl, fun _ _ => rfl, rfl, cube_edge_lengths_true⟩

/-- C5: pairwise_distances returns one Euclidean distance per unordered
index pair (i, j) with i < j, hence n * (n - 1) / 2 values for n points
and the empty list below two points; the octahedron has 6 points of norm
1, 15 pairwise distances with minimum sqrt 2, of which exactly 12 are
within 1e-9 of sqrt 2. -/
theorem c5_pairwise_distances_spec :
    (∀ pts : List Point3,
      pairwise_distances pts =
        (pairIdx pts.length).map (fun ij =>
          dist3 (pts.getD ij.1 ((0 : ℝ), 0, 0)) (pts.getD ij.2 ((0 : ℝ), 0, 0)))) ∧
    (∀ pts : List Point3,
      (pairwise_distances pts).length = pts.length * (pts.length - 1) / 2) ∧
    pairwise_distances ([] : List Point3) = [] ∧
    (∀ p : Point3, pairwise_distances [p] = []) ∧
    generate_platonic_solid "octahedron" = Except.ok octahedron_points ∧
    octahedron_points.length = 6 ∧
    octahedron_points.map norm3 = [1, 1, 1, 1, 1, 1] ∧
    (pairwise_distances octahedron_points).length = 15 ∧
    minOf (pairwise_distances octahedron_points) = Real.sqrt 2 ∧
    (pairwise_distances octahedron_points).countP
      (fun d => decide (|d - Real.sqrt 2| ≤ 1e-9)) = 12 :=
  ⟨pairwise_distances_pairIdx, pairwise_distances_length, rfl, fun _ => rfl, rfl, rfl,
    octa_norms, by rw [octa_dists]; rfl, octa_min, octa_count12⟩

/-- C9: generate_platonic_solid matches names case-insensitively (names
with the same lower-casing give identical results), its key set is the
five solids, and every name whose lower-casing is outside that set
fails, including the empty string and sphere. -/
theorem c9_generate_platonic_solid_names :
    (∀ s t : String, lower s = lower t →
      generate_platonic_solid s = generate_platonic_solid t) ∧
    PLATONIC_SOLIDS.map Prod.fst =
      ["tetrahedron", "cube", "octahedron", "icosahedron", "dodecahedron"] ∧
    (∀ name : String,
      lower name ∉ ["tetrahedron", "cube", "octahedron", "icosahedron", "dodecahedron"] →
      generate_platonic_solid name = Except.error ()) ∧
    generate_platonic_solid "TETRAHEDRON" = generate_platonic_solid "tetrahedron" ∧
    generate_platonic_solid "sphere" = Except.error () ∧
    generate_platonic_solid "" = Except.error () := by
  refine ⟨?_, rfl, ?_, rfl, rfl, rfl⟩
  · intro s t h
    unfold generate_platonic_solid
    rw [h]
  · intro name h
    simp only [List.mem_cons, List.not_mem_nil, or_false, not_or] at h
    obtain ⟨h1, h2, h3, h4, h5⟩ := h
    unfold generate_platonic_solid PLATONIC_SOLIDS
    simp [List.lookup, beq_eq_false_iff_ne.mpr h1, beq_eq_false_iff_ne.mpr h2,
      beq_eq_false_iff_ne.mpr h3, beq_eq_false_iff_ne.mpr h4,
      beq_eq_false_iff_ne.mpr h5]

/-- Witness for C9: a pair of names equal up to case, and an unknown name
with upper-case letters. -/
theorem c9_generate_platonic_solid_names_witness :
    generate_platonic_solid "TETRAHEDRON" = generate_platonic_solid "tetrahedron" ∧
      generate_platonic_solid "Sphere" = Except.error () :=
  ⟨c9_generate_platonic_solid_names.1 "TETRAHEDRON" "tetrahedron" (by decide),
   c9_generate_platonic_solid_names.2.2.1 "Sphere" (by decide)⟩

end
